import Mathlib

/-!
Verification of `condvar_store` (`src/lib.rs`): a process-local cache of a
single value with per-value expiry and single-flight refresh coordination,
built from an `RwLock`-guarded cached value, an `RwLock`-guarded expiry
timestamp, and a `(Mutex<bool>, Condvar)` gate.

Two embeddings of the same source are developed:

* a sequential, instrumented embedding of `CondvarStore::get` /
  `CondvarStore::update` / `CondvarStore::new` / `CondvarStore::with_timeout`
  for a single uncontended caller, with explicit lock-poisoning flags and an
  event trace (which code sections ran);

* a concurrent small-step labelled transition system over any index set of
  caller threads, each section of code that runs under one lock being one
  atomic step, used for the leader-election (single-flight) properties, the
  absence of any condition-variable notification, and the wait/timeout
  accounting.

Timestamps (`chrono::DateTime<Utc>`) are modelled as integers, the cached
resource type `T` and its error type `E` are arbitrary.
-/

/-- Timestamps (`DateTime<Utc>` in the source) as integers: only `>`
comparisons on them matter to the store. -/
abbrev Time := Int

/-- The `GetExpiry` trait of the source: `fn get(&mut self) -> Result<(), Error>`
is modelled as a function from the current instance to `Except E T` (the
refreshed instance on success, the caller-defined error on failure, the
instance unchanged by a failed call), and `fn expiry(&self) -> DateTime<Utc>`
as a pure function to `Time`. -/
structure GetExpiry (T E : Type) where
  get : T → Except E T
  expiry : T → Time

/-- The error taxonomy of `get()`: `CondvarStoreError::GetTimeout`,
`CondvarStoreError::PoisonedLock` (its message string is dropped), and
`underlying e` for an error of type `E` propagated out of `T::get` through
the opaque `failure::Error`. -/
inductive CondvarStoreError (E : Type) where
  | GetTimeout
  | PoisonedLock
  | underlying (e : E)
deriving DecidableEq

/-- The fields of `struct CondvarStore<T>`: `cached: Arc<RwLock<T>>`,
`is_inflight: Arc<(Mutex<bool>, Condvar)>` (its boolean), `expiry:
Arc<RwLock<DateTime<Utc>>>` and `timeout: u64` (milliseconds). The `Arc`
indirection is dropped: one value of this structure is the shared state all
clones of a store reference. -/
structure CondvarStore (T : Type) where
  cached : T
  is_inflight : Bool
  expiry : Time
  timeout : Nat
deriving DecidableEq

/-- Poison state of the three synchronisation primitives a call to `get()`
touches: the `expiry` RwLock, the gate `Mutex` and the `cached` RwLock.
A flag is `true` when every acquisition of that lock during the call fails
(Rust lock poisoning is permanent). -/
structure Locks where
  expiryPoisoned : Bool
  gatePoisoned : Bool
  cachedPoisoned : Bool
deriving DecidableEq

/-- All locks healthy. -/
def Locks.clean : Locks :=
  { expiryPoisoned := false, gatePoisoned := false, cachedPoisoned := false }

/-- Events recording which sections of `get()` ran, in order: the fast-path
return, the gate-mutex test-and-set section, becoming leader (observing the
flag `false` and setting it `true`), the `k.get()` call inside `update`,
clearing the flag, and the final wait-loop check of the flag. -/
inductive Ev where
  | fastHit
  | gateLocked
  | becameLeader
  | refreshInvoked
  | flagCleared
  | waitChecked
deriving DecidableEq

/-- `CondvarStore::update` (src/lib.rs lines 65-77): take the `cached` write
lock (poisoning maps to `PoisonedLock`), call `k.get()` (propagating its
error), then take the `expiry` write lock (poisoning maps to `PoisonedLock`)
and store `k.expiry()`. Returns the `Result`, the store state after the call
and the events. On a failed `k.get()` the cached value and expiry are left as
they were; on success the cached value is replaced even if the subsequent
expiry write fails. -/
def CondvarStore.update {T E : Type} (R : GetExpiry T E) (p : Locks)
    (s : CondvarStore T) :
    Except (CondvarStoreError E) Unit × CondvarStore T × List Ev :=
  if p.cachedPoisoned then (.error .PoisonedLock, s, [])
  else
    match R.get s.cached with
    | .error e => (.error (.underlying e), s, [.refreshInvoked])
    | .ok k =>
        if p.expiryPoisoned then
          (.error .PoisonedLock, { s with cached := k }, [.refreshInvoked])
        else
          (.ok (), { s with cached := k, expiry := R.expiry k }, [.refreshInvoked])

/-- `CondvarStore::get` (src/lib.rs lines 79-121) for a single uncontended
caller. Line by line: the fast path `if let Ok(expiry) = self.expiry.read()`
silently skips a poisoned expiry lock (no error is returned there) and
returns the cached value when `*expiry > now`; otherwise the gate mutex is
locked (poisoning maps to `PoisonedLock`) and the flag test-and-set decides
leadership. The leader runs `update`, re-locks the gate, clears the flag and
propagates `update`'s error if any (`updated?`); with no error it falls into
the wait loop, finds the flag it just cleared still clear, and returns the
cached value. A non-leader finds the flag set; with no concurrent thread to
clear it and with the condition variable never notified anywhere in the
source, its `wait_timeout` elapses and the call returns `GetTimeout`. -/
def CondvarStore.get {T E : Type} (R : GetExpiry T E) (p : Locks) (now : Time)
    (s : CondvarStore T) :
    Except (CondvarStoreError E) T × CondvarStore T × List Ev :=
  if ¬ p.expiryPoisoned ∧ now < s.expiry then
    (.ok s.cached, s, [.fastHit])
  else if p.gatePoisoned then
    (.error .PoisonedLock, s, [])
  else if s.is_inflight then
    (.error .GetTimeout, s, [.gateLocked, .waitChecked])
  else
    match CondvarStore.update R p { s with is_inflight := true } with
    | (.error e, s2, ev2) =>
        (.error e, { s2 with is_inflight := false },
          [.gateLocked, .becameLeader] ++ ev2 ++ [.flagCleared])
    | (.ok _, s2, ev2) =>
        (.ok s2.cached, { s2 with is_inflight := false },
          [.gateLocked, .becameLeader] ++ ev2 ++ [.flagCleared, .waitChecked])

/-- `CondvarStore::new` (src/lib.rs lines 50-58): read `t.expiry()` once,
seed the expiry from it, start with the flag `false` and the default timeout
of 1000 milliseconds. -/
def CondvarStore.new {T E : Type} (R : GetExpiry T E) (t : T) : CondvarStore T :=
  { cached := t, is_inflight := false, expiry := R.expiry t, timeout := 1000 }

/-- `CondvarStore::with_timeout` (src/lib.rs lines 60-63): replace the
timeout, leave every other field as it is. -/
def CondvarStore.with_timeout {T : Type} (s : CondvarStore T) (t : Nat) :
    CondvarStore T :=
  { s with timeout := t }

/-!
## Concurrent model

Any number of caller threads, indexed by an arbitrary type `ι` with decidable
equality, each running `CondvarStore::get` once on the same store. Each code
section that executes while holding one lock is one atomic step; the program
counter below names the point a thread has reached in `get()`. Locks are
healthy here (poisoning is covered by the sequential model above). Each
thread reads `Utc::now()` once on entry (`nows i`).

Since only the unique leader writes `cached` and `expiry` (proved below),
the two guarded writes inside `update` are taken as one step.
-/

/-- Program counter of one thread inside `get()`:

* `start` — about to read the expiry (line 81);
* `gate` — expired, about to lock the gate mutex and test-and-set the flag
  (lines 88-98);
* `leaderUpd` — won the flag, about to run `self.update()` (line 100);
* `leaderClear res` — `update` returned `res`, about to re-lock the gate and
  clear the flag (lines 101-106);
* `waitEnter` — about to lock the gate and check the flag (lines 108-111,
  also the re-check after every wakeup);
* `waiting` — inside `cvar.wait_timeout` (line 113);
* `done res` — returned from `get()` with `res`. -/
inductive PC (T E : Type) where
  | start
  | gate
  | leaderUpd
  | leaderClear (res : Except (CondvarStoreError E) Unit)
  | waitEnter
  | waiting
  | done (res : Except (CondvarStoreError E) T)

/-- The shared state behind the store's three `Arc`s, plus the (immutable)
configured timeout in milliseconds. -/
structure Shared (T : Type) where
  cached : T
  expiry : Time
  is_inflight : Bool
  timeout : Nat

/-- A global state: each thread's program counter, each thread's accumulated
milliseconds spent sleeping in `wait_timeout`, and the shared store state. -/
structure GState (ι T E : Type) where
  threads : ι → PC T E
  waited : ι → Nat
  shared : Shared T

/-- Pointwise update of a function at one index. -/
def updFn {ι α : Type} [DecidableEq ι] (f : ι → α) (i : ι) (a : α) : ι → α :=
  fun j => if j = i then a else f j

/-- Set thread `i`'s program counter. -/
def GState.setPC {ι T E : Type} [DecidableEq ι] (g : GState ι T E) (i : ι)
    (p : PC T E) : GState ι T E :=
  { g with threads := updFn g.threads i p }

/-- Set thread `i`'s accumulated wait. -/
def GState.setWait {ι T E : Type} [DecidableEq ι] (g : GState ι T E) (i : ι)
    (d : Nat) : GState ι T E :=
  { g with waited := updFn g.waited i d }

/-- Write the gate flag. -/
def GState.setInflight {ι T E : Type} (g : GState ι T E) (b : Bool) :
    GState ι T E :=
  { g with shared := { g.shared with is_inflight := b } }

/-- Write the cached value (the `cached` RwLock's contents). -/
def GState.setCached {ι T E : Type} (g : GState ι T E) (k : T) : GState ι T E :=
  { g with shared := { g.shared with cached := k } }

/-- Write the expiry (the `expiry` RwLock's contents). -/
def GState.setExpiry {ι T E : Type} (g : GState ι T E) (x : Time) :
    GState ι T E :=
  { g with shared := { g.shared with expiry := x } }

/-- Labels naming which code section a step executes and which thread runs
it. `fastHit`/`fastMiss`: the expiry read (line 81) found the value fresh /
stale. `winGate`/`loseGate`: the test-and-set (lines 88-98) found the flag
`false` and set it / found it `true`. `refreshStep`: `self.update()` (line
100). `clearFlag`: re-lock, `assert`, clear (lines 101-105). `waitCheck`:
the flag check at the head of the wait loop (lines 108-111 / line 118).
`spuriousWake i d`: `wait_timeout` returned after `d` ms without timing out
— only a spurious OS wakeup can cause this, since no `notify` call exists
anywhere in the source. `timeoutStep`: `wait_timeout` elapsed (lines
113-117). -/
inductive Label (ι : Type) where
  | fastHit (i : ι)
  | fastMiss (i : ι)
  | winGate (i : ι)
  | loseGate (i : ι)
  | refreshStep (i : ι)
  | clearFlag (i : ι)
  | waitCheck (i : ι)
  | spuriousWake (i : ι) (d : Nat)
  | timeoutStep (i : ι)

/-- The thread a label belongs to. -/
def Label.actor {ι : Type} : Label ι → ι
  | .fastHit i => i
  | .fastMiss i => i
  | .winGate i => i
  | .loseGate i => i
  | .refreshStep i => i
  | .clearFlag i => i
  | .waitCheck i => i
  | .spuriousWake i _ => i
  | .timeoutStep i => i

/-- One atomic step of the interleaved execution of `get()` (src/lib.rs lines
79-121) by one thread. The condition variable is never notified anywhere in
the source, so a thread at `waiting` moves only by `spuriousWake` (an OS
spurious wakeup before the timeout, `timed_out()` false, re-check the flag)
or by `timedOut` (the full `self.timeout` elapsed, return `GetTimeout` —
the source checks `timed_out()` before re-reading the flag, so this happens
even if the flag is already clear). -/
inductive Step {ι T E : Type} [DecidableEq ι] (R : GetExpiry T E)
    (nows : ι → Time) : GState ι T E → Label ι → GState ι T E → Prop where
  | fastHit {g : GState ι T E} {i : ι}
      (h1 : g.threads i = .start) (h2 : nows i < g.shared.expiry) :
      Step R nows g (.fastHit i) (g.setPC i (.done (.ok g.shared.cached)))
  | fastMiss {g : GState ι T E} {i : ι}
      (h1 : g.threads i = .start) (h2 : ¬ nows i < g.shared.expiry) :
      Step R nows g (.fastMiss i) (g.setPC i .gate)
  | winGate {g : GState ι T E} {i : ι}
      (h1 : g.threads i = .gate) (h2 : g.shared.is_inflight = false) :
      Step R nows g (.winGate i) ((g.setPC i .leaderUpd).setInflight true)
  | loseGate {g : GState ι T E} {i : ι}
      (h1 : g.threads i = .gate) (h2 : g.shared.is_inflight = true) :
      Step R nows g (.loseGate i) (g.setPC i .waitEnter)
  | refreshOk {g : GState ι T E} {i : ι} {k : T}
      (h1 : g.threads i = .leaderUpd) (h2 : R.get g.shared.cached = .ok k) :
      Step R nows g (.refreshStep i)
        (((g.setPC i (.leaderClear (.ok ()))).setCached k).setExpiry (R.expiry k))
  | refreshErr {g : GState ι T E} {i : ι} {e : E}
      (h1 : g.threads i = .leaderUpd) (h2 : R.get g.shared.cached = .error e) :
      Step R nows g (.refreshStep i)
        (g.setPC i (.leaderClear (.error (.underlying e))))
  | clearOk {g : GState ι T E} {i : ι}
      (h1 : g.threads i = .leaderClear (.ok ())) :
      Step R nows g (.clearFlag i) ((g.setPC i .waitEnter).setInflight false)
  | clearErr {g : GState ι T E} {i : ι} {err : CondvarStoreError E}
      (h1 : g.threads i = .leaderClear (.error err)) :
      Step R nows g (.clearFlag i)
        ((g.setPC i (.done (.error err))).setInflight false)
  | waitCheckDone {g : GState ι T E} {i : ι}
      (h1 : g.threads i = .waitEnter) (h2 : g.shared.is_inflight = false) :
      Step R nows g (.waitCheck i) (g.setPC i (.done (.ok g.shared.cached)))
  | waitCheckSleep {g : GState ι T E} {i : ι}
      (h1 : g.threads i = .waitEnter) (h2 : g.shared.is_inflight = true) :
      Step R nows g (.waitCheck i) (g.setPC i .waiting)
  | spuriousWake {g : GState ι T E} {i : ι} {d : Nat}
      (h1 : g.threads i = .waiting) (h2 : d < g.shared.timeout) :
      Step R nows g (.spuriousWake i d)
        ((g.setPC i .waitEnter).setWait i (g.waited i + d))
  | timedOut {g : GState ι T E} {i : ι}
      (h1 : g.threads i = .waiting) :
      Step R nows g (.timeoutStep i)
        ((g.setPC i (.done (.error .GetTimeout))).setWait i
          (g.waited i + g.shared.timeout))

/-- Some thread takes some step. -/
def GStep {ι T E : Type} [DecidableEq ι] (R : GetExpiry T E) (nows : ι → Time)
    (g g' : GState ι T E) : Prop :=
  ∃ l, Step R nows g l g'

/-- Reachability by interleaved steps. -/
def Reachable {ι T E : Type} [DecidableEq ι] (R : GetExpiry T E)
    (nows : ι → Time) (g0 g : GState ι T E) : Prop :=
  Relation.ReflTransGen (GStep R nows) g0 g

/-- A state in which every thread is about to call `get()`, nobody has
waited, and the gate flag is `false` (as `new` leaves it). -/
def Initial {ι T E : Type} (g : GState ι T E) : Prop :=
  (∀ i, g.threads i = .start) ∧ (∀ i, g.waited i = 0) ∧
    g.shared.is_inflight = false

/-- Whether a program counter is inside the leader region: between winning
the test-and-set (line 93) and clearing the flag (line 105), i.e. while this
thread's `self.update()` — and hence its `refresh()` invocation — is in
flight. -/
def inRegion {T E : Type} : PC T E → Bool
  | .leaderUpd => true
  | .leaderClear _ => true
  | _ => false

/-- The mutual-exclusion invariant, over a thread assignment and the gate
flag: at most one thread is in the leader region, and none is when the flag
is down. -/
def LeaderInvOn {ι T E : Type} (th : ι → PC T E) (fl : Bool) : Prop :=
  (∀ i j, inRegion (th i) = true → inRegion (th j) = true → i = j) ∧
    (fl = false → ∀ i, inRegion (th i) = false)

/-- The state reached by the leader's flag-clearing step (lines 101-106):
with a successful `update` it proceeds to the wait loop; with a failed one
`updated?` returns the error. Either way the flag goes down. -/
def clearTarget {ι T E : Type} [DecidableEq ι] (g : GState ι T E) (i : ι)
    (res : Except (CondvarStoreError E) Unit) : GState ι T E :=
  match res with
  | .ok _ => (g.setPC i .waitEnter).setInflight false
  | .error e => (g.setPC i (.done (.error e))).setInflight false

/-!
## Concrete scenarios

A two-thread execution on an expired store with timeout 5 ms, used to
exhibit concrete runs of the protocol: both threads miss the fast path,
thread 0 wins the gate and leads, thread 1 loses and goes to sleep in
`wait_timeout`.
-/

/-- A concrete resource over `Nat`: refreshing succeeds, increments the
value and reports expiry 10. -/
def Rex : GetExpiry Nat Nat :=
  { get := fun t => .ok (t + 1), expiry := fun _ => 10 }

/-- Both threads read `now = 0`. -/
def nowsEx : Fin 2 → Time := fun _ => 0

/-- Initial state: both threads about to call `get()`, value 0 already
expired (expiry 0 is not in the future of now 0), flag down, timeout 5 ms. -/
def cg0 : GState (Fin 2) Nat Nat :=
  { threads := fun _ => .start, waited := fun _ => 0,
    shared := { cached := 0, expiry := 0, is_inflight := false, timeout := 5 } }

/-- Thread 0 misses the fast path. -/
def cg1 : GState (Fin 2) Nat Nat := cg0.setPC 0 .gate

/-- Thread 1 misses the fast path. -/
def cg2 : GState (Fin 2) Nat Nat := cg1.setPC 1 .gate

/-- Thread 0 wins the test-and-set and becomes leader. -/
def cg3 : GState (Fin 2) Nat Nat := (cg2.setPC 0 .leaderUpd).setInflight true

/-- Thread 1 finds the flag set and becomes a follower. -/
def cg4 : GState (Fin 2) Nat Nat := cg3.setPC 1 .waitEnter

/-- Thread 1 checks the flag, finds it set, and goes to sleep in
`wait_timeout`. -/
def cg5 : GState (Fin 2) Nat Nat := cg4.setPC 1 .waiting

/-- (Timeout branch.) Thread 1 is woken spuriously after 4 ms, before its
5 ms wait elapses. -/
def cg6 : GState (Fin 2) Nat Nat :=
  (cg5.setPC 1 .waitEnter).setWait 1 (cg5.waited 1 + 4)

/-- Thread 1 re-checks the flag — the leader has not cleared it — and goes
back to sleep with a fresh full 5 ms budget. -/
def cg7 : GState (Fin 2) Nat Nat := cg6.setPC 1 .waiting

/-- Thread 1's second wait elapses in full: `get()` returns `GetTimeout`
after 4 + 5 = 9 ms of waiting, exceeding the configured 5 ms timeout. -/
def cg8 : GState (Fin 2) Nat Nat :=
  (cg7.setPC 1 (.done (.error .GetTimeout))).setWait 1
    (cg7.waited 1 + cg7.shared.timeout)

/-- (Broadcast branch.) From `cg5` instead the leader's `update` runs and
succeeds: the cached value becomes 1, the expiry 10. -/
def cgR : GState (Fin 2) Nat Nat :=
  ((cg5.setPC 0 (.leaderClear (.ok ()))).setCached 1).setExpiry 10

/-- The leader re-locks the gate and clears the flag (lines 101-105); no
wake signal of any kind is sent. -/
def cgA : GState (Fin 2) Nat Nat := (cgR.setPC 0 .waitEnter).setInflight false

/-- Thread 1, still asleep, is never woken: its wait elapses and `get()`
returns `GetTimeout`, although the refresh completed and the flag is down. -/
def cgB : GState (Fin 2) Nat Nat :=
  (cgA.setPC 1 (.done (.error .GetTimeout))).setWait 1
    (cgA.waited 1 + cgA.shared.timeout)

/-- One thread reading `now = 0`. -/
def nowsF : Fin 1 → Time := fun _ => 0

/-- A single thread about to call `get()` on a fresh store: value 42 with
expiry 100, in the future of now 0. -/
def fg : GState (Fin 1) Nat Nat :=
  { threads := fun _ => .start, waited := fun _ => 0,
    shared := { cached := 42, expiry := 100, is_inflight := false, timeout := 1000 } }

/-- A single thread at the wait-loop check with the flag down and value 7
cached. -/
def wg8 : GState (Fin 1) Nat Nat :=
  { threads := fun _ => .waitEnter, waited := fun _ => 0,
    shared := { cached := 7, expiry := 0, is_inflight := false, timeout := 1000 } }

/-- A resource whose refresh always fails with error 3. -/
def rErr : GetExpiry Nat Nat :=
  { get := fun _ => .error 3, expiry := fun _ => 0 }

/-- An expired store holding value 5. -/
def sC5 : CondvarStore Nat :=
  { cached := 5, is_inflight := false, expiry := 0, timeout := 1000 }

/-- A resource whose refresh always fails with error 7. -/
def rFail : GetExpiry Nat Nat :=
  { get := fun _ => .error 7, expiry := fun _ => 0 }

/-- A store holding value 0 that is still fresh at now 0: expiry 100. -/
def sC6 : CondvarStore Nat :=
  { cached := 0, is_inflight := false, expiry := 100, timeout := 1000 }

/-- Only the `expiry` RwLock is poisoned: the very lock the fast path reads. -/
def pExpiry : Locks :=
  { expiryPoisoned := true, gatePoisoned := false, cachedPoisoned := false }

/-- Only the gate mutex is poisoned. -/
def pGate : Locks :=
  { expiryPoisoned := false, gatePoisoned := true, cachedPoisoned := false }

/-- An expired store holding value 0. -/
def sC6b : CondvarStore Nat :=
  { cached := 0, is_inflight := false, expiry := 0, timeout := 1000 }

/-!
## Helper lemmas: the mutual-exclusion invariant
-/

/-- Evaluation of a pointwise update. -/
theorem updFn_eval {ι α : Type} [DecidableEq ι] (f : ι → α) (i j : ι) (a : α) :
    updFn f i a j = if j = i then a else f j := rfl

/-- Writing a non-region program counter preserves the invariant (the leader
region can only shrink). -/
theorem leaderInvOn_nonregion {ι T E : Type} [DecidableEq ι]
    {th : ι → PC T E} {fl : Bool} (k : ι) (q : PC T E)
    (hq : inRegion q = false) (h : LeaderInvOn th fl) :
    LeaderInvOn (updFn th k q) fl := by
  refine ⟨fun a b ha hb => ?_, fun hfl a => ?_⟩
  · rw [updFn_eval] at ha hb
    by_cases hak : a = k
    · rw [if_pos hak, hq] at ha
      simp at ha
    · rw [if_neg hak] at ha
      by_cases hbk : b = k
      · rw [if_pos hbk, hq] at hb
        simp at hb
      · rw [if_neg hbk] at hb
        exact h.1 a b ha hb
  · rw [updFn_eval]
    by_cases hak : a = k
    · rw [if_pos hak]
      exact hq
    · rw [if_neg hak]
      exact h.2 hfl a

/-- A thread already in the region may move to another region counter. -/
theorem leaderInvOn_region_move {ι T E : Type} [DecidableEq ι]
    {th : ι → PC T E} {fl : Bool} (k : ι) (q : PC T E)
    (hth : inRegion (th k) = true) (_hq : inRegion q = true)
    (h : LeaderInvOn th fl) : LeaderInvOn (updFn th k q) fl := by
  refine ⟨fun a b ha hb => ?_, fun hfl _ => ?_⟩
  · have hA : a = k := by
      by_cases hak : a = k
      · exact hak
      · rw [updFn_eval, if_neg hak] at ha
        exact h.1 a k ha hth
    have hB : b = k := by
      by_cases hbk : b = k
      · exact hbk
      · rw [updFn_eval, if_neg hbk] at hb
        exact h.1 b k hb hth
    rw [hA, hB]
  · exact absurd (h.2 hfl k) (by simp [hth])

/-- A thread in the region forces the flag up. -/
theorem leaderInvOn_flag_true {ι T E : Type} {th : ι → PC T E} {fl : Bool}
    (h : LeaderInvOn th fl) {k : ι} (hk : inRegion (th k) = true) :
    fl = true := by
  cases hfl : fl
  · exact absurd (h.2 hfl k) (by simp [hk])
  · rfl

/-- Winning the test-and-set while the flag is down makes the winner the
unique region thread and raises the flag. -/
theorem leaderInvOn_win {ι T E : Type} [DecidableEq ι] {th : ι → PC T E}
    (k : ι) (h : LeaderInvOn th false) :
    LeaderInvOn (updFn th k PC.leaderUpd) true := by
  refine ⟨fun a b ha hb => ?_, fun hfl => by simp at hfl⟩
  have hA : a = k := by
    by_cases hak : a = k
    · exact hak
    · rw [updFn_eval, if_neg hak] at ha
      exact absurd ha (by simp [h.2 rfl a])
  have hB : b = k := by
    by_cases hbk : b = k
    · exact hbk
    · rw [updFn_eval, if_neg hbk] at hb
      exact absurd hb (by simp [h.2 rfl b])
  rw [hA, hB]

/-- The region thread leaving the region while lowering the flag restores
the flag-down invariant. -/
theorem leaderInvOn_clear {ι T E : Type} [DecidableEq ι] {th : ι → PC T E}
    {fl : Bool} (k : ι) (q : PC T E) (hth : inRegion (th k) = true)
    (hq : inRegion q = false) (h : LeaderInvOn th fl) :
    LeaderInvOn (updFn th k q) false := by
  refine ⟨(leaderInvOn_nonregion k q hq h).1, fun _ a => ?_⟩
  rw [updFn_eval]
  by_cases hak : a = k
  · rw [if_pos hak]
    exact hq
  · rw [if_neg hak]
    by_cases hreg : inRegion (th a) = true
    · exact absurd (h.1 a k hreg hth) hak
    · simpa using hreg

/-- Every step preserves the mutual-exclusion invariant. -/
theorem leaderInv_step {ι T E : Type} [DecidableEq ι] (R : GetExpiry T E)
    (nows : ι → Time) {g g' : GState ι T E} {l : Label ι}
    (h : LeaderInvOn g.threads g.shared.is_inflight)
    (hs : Step R nows g l g') :
    LeaderInvOn g'.threads g'.shared.is_inflight := by
  cases hs with
  | fastHit h1 h2 => exact leaderInvOn_nonregion _ _ rfl h
  | fastMiss h1 h2 => exact leaderInvOn_nonregion _ _ rfl h
  | winGate h1 h2 =>
      rw [h2] at h
      exact leaderInvOn_win _ h
  | loseGate h1 h2 => exact leaderInvOn_nonregion _ _ rfl h
  | refreshOk h1 h2 =>
      exact leaderInvOn_region_move _ _ (by rw [h1]; rfl) rfl h
  | refreshErr h1 h2 =>
      exact leaderInvOn_region_move _ _ (by rw [h1]; rfl) rfl h
  | clearOk h1 =>
      exact leaderInvOn_clear _ _ (by rw [h1]; rfl) rfl h
  | clearErr h1 =>
      exact leaderInvOn_clear _ _ (by rw [h1]; rfl) rfl h
  | waitCheckDone h1 h2 => exact leaderInvOn_nonregion _ _ rfl h
  | waitCheckSleep h1 h2 => exact leaderInvOn_nonregion _ _ rfl h
  | spuriousWake h1 h2 => exact leaderInvOn_nonregion _ _ rfl h
  | timedOut h1 => exact leaderInvOn_nonregion _ _ rfl h

/-- The mutual-exclusion invariant holds in every state reachable from an
initial state. -/
theorem leaderInv_reachable {ι T E : Type} [DecidableEq ι] (R : GetExpiry T E)
    (nows : ι → Time) {g0 g : GState ι T E} (h0 : Initial g0)
    (hr : Reachable R nows g0 g) :
    LeaderInvOn g.threads g.shared.is_inflight := by
  induction hr with
  | refl =>
      refine ⟨fun a b ha _ => ?_, fun _ a => ?_⟩
      · rw [h0.1 a] at ha
        simp [inRegion] at ha
      · rw [h0.1 a]
        rfl
  | tail hseg hstep ih =>
      obtain ⟨l, hl⟩ := hstep
      exact leaderInv_step R nows ih hl

/-- The two-thread scenario starts in an initial state. -/
theorem initial_cg0 : Initial cg0 := ⟨fun _ => rfl, fun _ => rfl, rfl⟩

/-- Thread 0's and thread 1's fast-path misses, thread 0's gate win, thread
1's gate loss and sleep: the scenario prefix is a real execution. -/
theorem reach_cg5 : Reachable Rex nowsEx cg0 cg5 :=
  Relation.ReflTransGen.head ⟨Label.fastMiss 0, Step.fastMiss rfl (by decide)⟩
    (Relation.ReflTransGen.head ⟨Label.fastMiss 1, Step.fastMiss rfl (by decide)⟩
      (Relation.ReflTransGen.head ⟨Label.winGate 0, Step.winGate rfl rfl⟩
        (Relation.ReflTransGen.head ⟨Label.loseGate 1, Step.loseGate rfl rfl⟩
          (Relation.ReflTransGen.head
            ⟨Label.waitCheck 1, Step.waitCheckSleep rfl rfl⟩
            Relation.ReflTransGen.refl))))

/-- The leader's refresh completes successfully while thread 1 sleeps. -/
theorem reach_cgR : Reachable Rex nowsEx cg0 cgR :=
  Relation.ReflTransGen.tail reach_cg5
    ⟨Label.refreshStep 0, Step.refreshOk rfl rfl⟩

/-- The full timeout branch: spurious wake after 4 ms, re-check, sleep
again, second wait elapses in full. -/
theorem reach_cg8 : Reachable Rex nowsEx cg0 cg8 :=
  Relation.ReflTransGen.tail
    (Relation.ReflTransGen.tail
      (Relation.ReflTransGen.tail reach_cg5
        ⟨Label.spuriousWake 1 4, Step.spuriousWake rfl (by decide)⟩)
      ⟨Label.waitCheck 1, Step.waitCheckSleep rfl rfl⟩)
    ⟨Label.timeoutStep 1, Step.timedOut rfl⟩

/-- The last step of the timeout branch, taken alone. -/
theorem step_cg7_cg8 : Step Rex nowsEx cg7 (Label.timeoutStep 1) cg8 :=
  Step.timedOut rfl

/-- A thread asleep in `wait_timeout` moves only by a spurious OS wakeup or
by its timeout elapsing: no step of the relation wakes it, because no
`notify` call exists anywhere in the source. -/
theorem waiting_steps {ι T E : Type} [DecidableEq ι] (R : GetExpiry T E)
    (nows : ι → Time) (g : GState ι T E) (i : ι)
    (hw : g.threads i = .waiting) :
    ∀ l g', Step R nows g l g' → Label.actor l = i →
      (∃ d, l = .spuriousWake i d) ∨ l = .timeoutStep i := by
  intro l g' hs hact
  cases hs with
  | fastHit h1 h2 =>
      simp only [Label.actor] at hact
      subst hact
      rw [hw] at h1
      simp at h1
  | fastMiss h1 h2 =>
      simp only [Label.actor] at hact
      subst hact
      rw [hw] at h1
      simp at h1
  | winGate h1 h2 =>
      simp only [Label.actor] at hact
      subst hact
      rw [hw] at h1
      simp at h1
  | loseGate h1 h2 =>
      simp only [Label.actor] at hact
      subst hact
      rw [hw] at h1
      simp at h1
  | refreshOk h1 h2 =>
      simp only [Label.actor] at hact
      subst hact
      rw [hw] at h1
      simp at h1
  | refreshErr h1 h2 =>
      simp only [Label.actor] at hact
      subst hact
      rw [hw] at h1
      simp at h1
  | clearOk h1 =>
      simp only [Label.actor] at hact
      subst hact
      rw [hw] at h1
      simp at h1
  | clearErr h1 =>
      simp only [Label.actor] at hact
      subst hact
      rw [hw] at h1
      simp at h1
  | waitCheckDone h1 h2 =>
      simp only [Label.actor] at hact
      subst hact
      rw [hw] at h1
      simp at h1
  | waitCheckSleep h1 h2 =>
      simp only [Label.actor] at hact
      subst hact
      rw [hw] at h1
      simp at h1
  | spuriousWake h1 h2 =>
      simp only [Label.actor] at hact
      subst hact
      exact Or.inl ⟨_, rfl⟩
  | timedOut h1 =>
      simp only [Label.actor] at hact
      subst hact
      exact Or.inr rfl

/-!
## Claims
-/

/-- Claim C1: on a store whose expiry is not in the future, leadership via
the gate flag is single-flight. In every reachable state at most one thread
is inside the leader region, so at most one `refresh()` invocation is in
flight per store instance at any time; a refresh step is taken only by a
thread in that region, with the flag up; a caller wins the test-and-set only
when it observes the flag `false` — which it then sets, while no leader
exists — and every other contender observes the flag `true`, takes no
refresh step and leaves the shared state untouched on its way to the wait
loop. -/
theorem single_flight {ι T E : Type} [DecidableEq ι] (R : GetExpiry T E)
    (nows : ι → Time) (g0 g : GState ι T E) (h0 : Initial g0)
    (hr : Reachable R nows g0 g) :
    (∀ i j, inRegion (g.threads i) = true → inRegion (g.threads j) = true →
        i = j) ∧
    (∀ i g', Step R nows g (.refreshStep i) g' →
        inRegion (g.threads i) = true ∧ g.shared.is_inflight = true) ∧
    (∀ i g', Step R nows g (.winGate i) g' →
        g.shared.is_inflight = false ∧ g'.shared.is_inflight = true ∧
        g'.threads i = .leaderUpd ∧ ∀ j, inRegion (g.threads j) = false) ∧
    (∀ i g', Step R nows g (.loseGate i) g' →
        g.shared.is_inflight = true ∧ g'.threads i = .waitEnter ∧
        g'.shared = g.shared) := by
  have hInv := leaderInv_reachable R nows h0 hr
  refine ⟨hInv.1, ?_, ?_, ?_⟩
  · intro i g' hs
    cases hs with
    | refreshOk h1 h2 =>
        have hreg : inRegion (g.threads i) = true := by rw [h1]; rfl
        exact ⟨hreg, leaderInvOn_flag_true hInv hreg⟩
    | refreshErr h1 h2 =>
        have hreg : inRegion (g.threads i) = true := by rw [h1]; rfl
        exact ⟨hreg, leaderInvOn_flag_true hInv hreg⟩
  · intro i g' hs
    cases hs with
    | winGate h1 h2 =>
        refine ⟨h2, rfl, ?_, hInv.2 h2⟩
        show updFn g.threads i PC.leaderUpd i = PC.leaderUpd
        rw [updFn_eval, if_pos rfl]
  · intro i g' hs
    cases hs with
    | loseGate h1 h2 =>
        refine ⟨h2, ?_, rfl⟩
        show updFn g.threads i PC.waitEnter i = PC.waitEnter
        rw [updFn_eval, if_pos rfl]

/-- C1 applied at a concrete input: in the reachable state `cg5` thread 0 is
inside the leader region and the uniqueness instance at it is discharged. -/
theorem single_flight_witness :
    inRegion (cg5.threads 0) = true ∧
    (inRegion (cg5.threads 0) = true → inRegion (cg5.threads 0) = true →
      (0 : Fin 2) = 0) :=
  ⟨rfl, fun h1 h2 =>
    (single_flight Rex nowsEx cg0 cg5 initial_cg0 reach_cg5).1 0 0 h1 h2⟩

/-- Claim C2: with the stored expiry strictly in the caller's future, the
only step the caller can take is the fast-path hit, which returns `Ok` with
the shared cached value at once — no gate-mutex section, no wait and no
refresh step is possible for it — and the shared state (cached value,
expiry, flag) is unchanged by the call. -/
theorem fast_path_no_coordination {ι T E : Type} [DecidableEq ι]
    (R : GetExpiry T E) (nows : ι → Time) (g : GState ι T E) (i : ι)
    (hpc : g.threads i = .start) (hfresh : nows i < g.shared.expiry) :
    (∀ l g', Step R nows g l g' → Label.actor l = i →
        l = .fastHit i ∧ g' = g.setPC i (.done (.ok g.shared.cached))) ∧
    Step R nows g (.fastHit i) (g.setPC i (.done (.ok g.shared.cached))) ∧
    (g.setPC i (.done (.ok g.shared.cached))).shared = g.shared := by
  refine ⟨?_, Step.fastHit hpc hfresh, rfl⟩
  intro l g' hs hact
  cases hs with
  | fastHit h1 h2 =>
      simp only [Label.actor] at hact
      subst hact
      exact ⟨rfl, rfl⟩
  | fastMiss h1 h2 =>
      simp only [Label.actor] at hact
      subst hact
      exact absurd hfresh h2
  | winGate h1 h2 =>
      simp only [Label.actor] at hact
      subst hact
      rw [hpc] at h1
      simp at h1
  | loseGate h1 h2 =>
      simp only [Label.actor] at hact
      subst hact
      rw [hpc] at h1
      simp at h1
  | refreshOk h1 h2 =>
      simp only [Label.actor] at hact
      subst hact
      rw [hpc] at h1
      simp at h1
  | refreshErr h1 h2 =>
      simp only [Label.actor] at hact
      subst hact
      rw [hpc] at h1
      simp at h1
  | clearOk h1 =>
      simp only [Label.actor] at hact
      subst hact
      rw [hpc] at h1
      simp at h1
  | clearErr h1 =>
      simp only [Label.actor] at hact
      subst hact
      rw [hpc] at h1
      simp at h1
  | waitCheckDone h1 h2 =>
      simp only [Label.actor] at hact
      subst hact
      rw [hpc] at h1
      simp at h1
  | waitCheckSleep h1 h2 =>
      simp only [Label.actor] at hact
      subst hact
      rw [hpc] at h1
      simp at h1
  | spuriousWake h1 h2 =>
      simp only [Label.actor] at hact
      subst hact
      rw [hpc] at h1
      simp at h1
  | timedOut h1 =>
      simp only [Label.actor] at hact
      subst hact
      rw [hpc] at h1
      simp at h1

/-- C2 applied at a concrete input: the single thread of `fg`, whose value
42 has expiry 100 in the future of now 0, takes the fast path and the shared
state is unchanged. -/
theorem fast_path_no_coordination_witness :
    Step Rex nowsF fg (.fastHit 0) (fg.setPC 0 (.done (.ok fg.shared.cached))) ∧
    (fg.setPC 0 (.done (.ok fg.shared.cached))).shared = fg.shared := by
  have h := fast_path_no_coordination Rex nowsF fg 0 rfl (by decide)
  exact ⟨h.2.1, h.2.2⟩

/-- Claim C4: flag-write discipline in any reachable state. Whoever sits at
the flag-clearing point is the unique leader-region thread and finds the
flag still up (so the `assert!(*is_inflight)` at line 104 holds); its
clearing step exists for a successful and for a failed `update` result
alike, lowers the flag and ends its leadership — after it the thread is
outside the region, so it cannot clear again without winning a fresh cycle.
Conversely, the only steps that change the flag at all are a gate win (the
thread becoming leader raising it) and the leader's clear: followers never
write the flag. -/
theorem flag_write_discipline {ι T E : Type} [DecidableEq ι]
    (R : GetExpiry T E) (nows : ι → Time) (g0 g : GState ι T E)
    (h0 : Initial g0) (hr : Reachable R nows g0 g) :
    (∀ i res, g.threads i = .leaderClear res →
        g.shared.is_inflight = true ∧
        (∀ j, inRegion (g.threads j) = true → j = i) ∧
        Step R nows g (.clearFlag i) (clearTarget g i res) ∧
        (clearTarget g i res).shared.is_inflight = false ∧
        inRegion ((clearTarget g i res).threads i) = false) ∧
    (∀ l g', Step R nows g l g' →
        g'.shared.is_inflight ≠ g.shared.is_inflight →
        (∃ i, l = .winGate i ∧ g.threads i = .gate) ∨
        (∃ i res, l = .clearFlag i ∧ g.threads i = .leaderClear res)) := by
  have hInv := leaderInv_reachable R nows h0 hr
  constructor
  · intro i res hpc
    have hreg : inRegion (g.threads i) = true := by rw [hpc]; rfl
    refine ⟨leaderInvOn_flag_true hInv hreg, fun j hj => hInv.1 j i hj hreg,
      ?_, ?_, ?_⟩
    · cases res with
      | ok u => exact Step.clearOk hpc
      | error e => exact Step.clearErr hpc
    · cases res with
      | ok u => rfl
      | error e => rfl
    · cases res with
      | ok u =>
          show inRegion (updFn g.threads i PC.waitEnter i) = false
          rw [updFn_eval, if_pos rfl]
          rfl
      | error e =>
          show inRegion (updFn g.threads i (PC.done (.error e)) i) = false
          rw [updFn_eval, if_pos rfl]
          rfl
  · intro l g' hs hne
    cases hs with
    | fastHit h1 h2 => exact absurd rfl hne
    | fastMiss h1 h2 => exact absurd rfl hne
    | winGate h1 h2 => exact Or.inl ⟨_, rfl, h1⟩
    | loseGate h1 h2 => exact absurd rfl hne
    | refreshOk h1 h2 => exact absurd rfl hne
    | refreshErr h1 h2 => exact absurd rfl hne
    | clearOk h1 => exact Or.inr ⟨_, _, rfl, h1⟩
    | clearErr h1 => exact Or.inr ⟨_, _, rfl, h1⟩
    | waitCheckDone h1 h2 => exact absurd rfl hne
    | waitCheckSleep h1 h2 => exact absurd rfl hne
    | spuriousWake h1 h2 => exact absurd rfl hne
    | timedOut h1 => exact absurd rfl hne

/-- C4 applied at a concrete input: in the reachable state `cgR` the leader
(thread 0, whose `update` succeeded) finds the flag still up and its
clearing step exists and lowers it. -/
theorem flag_write_discipline_witness :
    cgR.shared.is_inflight = true ∧
    Step Rex nowsEx cgR (.clearFlag 0) (clearTarget cgR 0 (.ok ())) ∧
    (clearTarget cgR 0 (.ok ())).shared.is_inflight = false := by
  have h :=
    (flag_write_discipline Rex nowsEx cg0 cgR initial_cg0 reach_cgR).1 0
      (.ok ()) rfl
  exact ⟨h.1, h.2.2.1, h.2.2.2.1⟩

/-- Claim C8: a follower at the wait-loop flag check that observes the flag
cleared (before any of its waits times out) can only return `Ok` with a read
handle to the cached value exactly as it currently stands: the step relation
hands it the present `cached` — which is still the old, stale value when the
leader's refresh failed — and carries no information about whether the
refresh succeeded. -/
theorem follower_reads_current_value {ι T E : Type} [DecidableEq ι]
    (R : GetExpiry T E) (nows : ι → Time) (g : GState ι T E) (i : ι)
    (hpc : g.threads i = .waitEnter) (hclear : g.shared.is_inflight = false) :
    (∀ l g', Step R nows g l g' → Label.actor l = i →
        l = .waitCheck i ∧ g' = g.setPC i (.done (.ok g.shared.cached))) ∧
    Step R nows g (.waitCheck i) (g.setPC i (.done (.ok g.shared.cached))) := by
  refine ⟨?_, Step.waitCheckDone hpc hclear⟩
  intro l g' hs hact
  cases hs with
  | fastHit h1 h2 =>
      simp only [Label.actor] at hact
      subst hact
      rw [hpc] at h1
      simp at h1
  | fastMiss h1 h2 =>
      simp only [Label.actor] at hact
      subst hact
      rw [hpc] at h1
      simp at h1
  | winGate h1 h2 =>
      simp only [Label.actor] at hact
      subst hact
      rw [hpc] at h1
      simp at h1
  | loseGate h1 h2 =>
      simp only [Label.actor] at hact
      subst hact
      rw [hpc] at h1
      simp at h1
  | refreshOk h1 h2 =>
      simp only [Label.actor] at hact
      subst hact
      rw [hpc] at h1
      simp at h1
  | refreshErr h1 h2 =>
      simp only [Label.actor] at hact
      subst hact
      rw [hpc] at h1
      simp at h1
  | clearOk h1 =>
      simp only [Label.actor] at hact
      subst hact
      rw [hpc] at h1
      simp at h1
  | clearErr h1 =>
      simp only [Label.actor] at hact
      subst hact
      rw [hpc] at h1
      simp at h1
  | waitCheckDone h1 h2 =>
      simp only [Label.actor] at hact
      subst hact
      exact ⟨rfl, rfl⟩
  | waitCheckSleep h1 h2 =>
      simp only [Label.actor] at hact
      subst hact
      rw [hclear] at h2
      simp at h2
  | spuriousWake h1 h2 =>
      simp only [Label.actor] at hact
      subst hact
      rw [hpc] at h1
      simp at h1
  | timedOut h1 =>
      simp only [Label.actor] at hact
      subst hact
      rw [hpc] at h1
      simp at h1

/-- C8 applied at a concrete input: the single thread of `wg8`, at the
wait-loop check with the flag down, returns `Ok` with the current cached
value 7. -/
theorem follower_reads_current_value_witness :
    Step Rex nowsF wg8 (.waitCheck 0)
      (wg8.setPC 0 (.done (.ok wg8.shared.cached))) :=
  (follower_reads_current_value Rex nowsF wg8 0 rfl rfl).2

/-- Claim C7 (amended): each single `wait_timeout` call is bounded by the
configured timeout — no step adds more than one full `self.timeout` to a
thread's accumulated wait — and the step in which a wait elapses makes that
thread's `get()` return `GetTimeout`, charging it exactly one full timeout.
The wait budget resets on every wakeup that still observes the flag set, so
the total across loop iterations is not bounded by the configured timeout
(see the counterexample). -/
theorem wait_bounded_per_iteration {ι T E : Type} [DecidableEq ι]
    (R : GetExpiry T E) (nows : ι → Time) {g g' : GState ι T E}
    {l : Label ι} (i : ι) (hs : Step R nows g l g') :
    g'.waited i ≤ g.waited i + g.shared.timeout ∧
    (l = .timeoutStep i →
        g'.threads i = .done (.error .GetTimeout) ∧
        g'.waited i = g.waited i + g.shared.timeout) := by
  cases hs with
  | fastHit h1 h2 => exact ⟨Nat.le_add_right _ _, fun hl => nomatch hl⟩
  | fastMiss h1 h2 => exact ⟨Nat.le_add_right _ _, fun hl => nomatch hl⟩
  | winGate h1 h2 => exact ⟨Nat.le_add_right _ _, fun hl => nomatch hl⟩
  | loseGate h1 h2 => exact ⟨Nat.le_add_right _ _, fun hl => nomatch hl⟩
  | refreshOk h1 h2 => exact ⟨Nat.le_add_right _ _, fun hl => nomatch hl⟩
  | refreshErr h1 h2 => exact ⟨Nat.le_add_right _ _, fun hl => nomatch hl⟩
  | clearOk h1 => exact ⟨Nat.le_add_right _ _, fun hl => nomatch hl⟩
  | clearErr h1 => exact ⟨Nat.le_add_right _ _, fun hl => nomatch hl⟩
  | waitCheckDone h1 h2 => exact ⟨Nat.le_add_right _ _, fun hl => nomatch hl⟩
  | waitCheckSleep h1 h2 => exact ⟨Nat.le_add_right _ _, fun hl => nomatch hl⟩
  | spuriousWake h1 h2 =>
      rename_i j d
      refine ⟨?_, fun hl => nomatch hl⟩
      show updFn g.waited j (g.waited j + d) i ≤ g.waited i + g.shared.timeout
      rw [updFn_eval]
      by_cases hij : i = j
      · rw [if_pos hij, hij]
        exact Nat.add_le_add_left (Nat.le_of_lt h2) _
      · rw [if_neg hij]
        exact Nat.le_add_right _ _
  | timedOut h1 =>
      rename_i j
      constructor
      · show updFn g.waited j (g.waited j + g.shared.timeout) i ≤
          g.waited i + g.shared.timeout
        rw [updFn_eval]
        by_cases hij : i = j
        · rw [if_pos hij, hij]
        · rw [if_neg hij]
          exact Nat.le_add_right _ _
      · intro hl
        have hji : j = i := by injection hl
        subst hji
        constructor
        · show updFn g.threads j (PC.done (.error .GetTimeout)) j =
            PC.done (.error .GetTimeout)
          rw [updFn_eval, if_pos rfl]
        · show updFn g.waited j (g.waited j + g.shared.timeout) j =
            g.waited j + g.shared.timeout
          rw [updFn_eval, if_pos rfl]

/-- C7 (amended) applied at a concrete input: the final timeout step of the
two-thread scenario charges thread 1 exactly one full timeout and ends its
call with `GetTimeout`. -/
theorem wait_bounded_per_iteration_witness :
    cg8.waited 1 ≤ cg7.waited 1 + cg7.shared.timeout ∧
    ((Label.timeoutStep 1 : Label (Fin 2)) = .timeoutStep 1 →
        cg8.threads 1 = .done (.error .GetTimeout) ∧
        cg8.waited 1 = cg7.waited 1 + cg7.shared.timeout) :=
  wait_bounded_per_iteration Rex nowsEx 1 step_cg7_cg8

/-- Claim C7 counterexample: in the execution `cg0 → … → cg8` the follower
(thread 1) spends 9 ms waiting — a 4 ms sleep ended by a spurious wakeup
that still finds the flag up, then a fresh full 5 ms wait — on a store whose
configured timeout is 5 ms: the total time spent waiting exceeds the
configured bound before `get()` returns `GetTimeout`. -/
theorem total_wait_exceeds_timeout :
    Initial cg0 ∧ Reachable Rex nowsEx cg0 cg8 ∧
    cg8.threads 1 = .done (.error .GetTimeout) ∧
    cg8.shared.timeout = 5 ∧ cg8.waited 1 = 9 ∧
    cg8.shared.timeout < cg8.waited 1 :=
  ⟨initial_cg0, reach_cg8, rfl, rfl, rfl, by decide⟩

/-- Claim C3 (refutation): the leader's completion step (lines 101-105)
re-locks the gate and clears the flag but sends no wake signal. In the real
execution reaching `cgR`, thread 0's clearing step leaves the sleeping
thread 1 exactly where it was — same program counter, same accumulated wait
— and afterwards thread 1 can still only move by a spurious OS wakeup or by
its timeout elapsing, in which case its `get()` returns `GetTimeout` even
though the refresh completed and the flag is down. No broadcast transition
exists in the step relation because no `notify_all` (or `notify_one`) call
exists anywhere in the source. -/
theorem clear_without_broadcast :
    Reachable Rex nowsEx cg0 cgR ∧
    cgR.threads 0 = .leaderClear (.ok ()) ∧
    cgR.threads 1 = .waiting ∧
    Step Rex nowsEx cgR (.clearFlag 0) cgA ∧
    cgA.shared.is_inflight = false ∧
    cgA.threads 1 = .waiting ∧
    cgA.waited 1 = cgR.waited 1 ∧
    (∀ l g', Step Rex nowsEx cgA l g' → Label.actor l = 1 →
        (∃ d, l = .spuriousWake 1 d) ∨ l = .timeoutStep 1) ∧
    Step Rex nowsEx cgA (.timeoutStep 1) cgB ∧
    cgB.threads 1 = .done (.error .GetTimeout) :=
  ⟨reach_cgR, rfl, rfl, Step.clearOk rfl, rfl, rfl, rfl,
    waiting_steps Rex nowsEx cgA 1 rfl, Step.timedOut rfl, rfl⟩

/-- Claim C5: when the caller becomes leader and the refresh fails, its
`get()` returns that very error to its own caller, and the store is left
exactly as it was — cached value, expiry and flag unchanged, still stale.
Consequently any later `get()` at a time when the value is still expired
re-enters leadership contention (locks the gate, wins the flag and
re-invokes the refresh) rather than returning a cached error. -/
theorem leader_error_propagates {T E : Type} (R : GetExpiry T E)
    (s : CondvarStore T) (now : Time) (e : E)
    (hfl : s.is_inflight = false) (hstale : ¬ now < s.expiry)
    (href : R.get s.cached = .error e) :
    CondvarStore.get R Locks.clean now s =
      (.error (.underlying e), s,
        [.gateLocked, .becameLeader, .refreshInvoked, .flagCleared]) ∧
    (∀ now2, ¬ now2 < s.expiry →
        Ev.becameLeader ∈ (CondvarStore.get R Locks.clean now2 s).2.2 ∧
        Ev.refreshInvoked ∈ (CondvarStore.get R Locks.clean now2 s).2.2) := by
  have hss : ({ s with is_inflight := false } : CondvarStore T) = s := by
    rw [← hfl]
  constructor
  · simp [CondvarStore.get, CondvarStore.update, Locks.clean, hstale, hfl,
      href, hss]
  · intro now2 h2
    simp [CondvarStore.get, CondvarStore.update, Locks.clean, h2, hfl, href]

/-- C5 applied at a concrete input: a leader on the expired store `sC5`
whose refresh fails with error 3 gets that error back and leaves the store
untouched. -/
theorem leader_error_propagates_witness :
    CondvarStore.get rErr Locks.clean 0 sC5 =
      (.error (.underlying 3), sC5,
        [.gateLocked, .becameLeader, .refreshInvoked, .flagCleared]) :=
  (leader_error_propagates rErr sC5 0 3 rfl (by decide) rfl).1

/-- Claim C6 (amended): every lock acquired on the slow path converts
poisoning into `PoisonedLock`, which `get()` returns — the gate mutex
(lines 90, 102, 109), the `cached` write lock and the `expiry` write lock
inside `update` (lines 68, 73) — but the fast-path read of the expiry does
not: a poisoned expiry RwLock is silently ignored there
(`if let Ok(expiry) = self.expiry.read()`, line 81), and the call falls
through to the slow path, never returning via the fast path, instead of
returning `PoisonedLock` at once. -/
theorem poisoned_lock_conversion {T E : Type} (R : GetExpiry T E) (p : Locks)
    (now : Time) (s : CondvarStore T) :
    (p.gatePoisoned = true → (p.expiryPoisoned = true ∨ ¬ now < s.expiry) →
        (CondvarStore.get R p now s).1 = .error .PoisonedLock) ∧
    (p.gatePoisoned = false → p.cachedPoisoned = true →
        s.is_inflight = false →
        (p.expiryPoisoned = true ∨ ¬ now < s.expiry) →
        (CondvarStore.get R p now s).1 = .error .PoisonedLock) ∧
    (∀ k, p.gatePoisoned = false → p.cachedPoisoned = false →
        p.expiryPoisoned = true → s.is_inflight = false →
        R.get s.cached = .ok k →
        (CondvarStore.get R p now s).1 = .error .PoisonedLock) ∧
    (p.expiryPoisoned = true →
        Ev.fastHit ∉ (CondvarStore.get R p now s).2.2) := by
  refine ⟨?_, ?_, ?_, ?_⟩
  · intro hg hor
    rcases hor with he | hn
    · simp [CondvarStore.get, hg, he]
    · simp [CondvarStore.get, hg, hn]
  · intro hg hc hf hor
    rcases hor with he | hn
    · simp [CondvarStore.get, CondvarStore.update, hg, hc, hf, he]
    · simp [CondvarStore.get, CondvarStore.update, hg, hc, hf, hn]
  · intro k hg hc he hf hR
    simp [CondvarStore.get, CondvarStore.update, hg, hc, he, hf, hR]
  · intro he
    by_cases hg : p.gatePoisoned = true
    · simp [CondvarStore.get, he, hg]
    · have hg' : p.gatePoisoned = false := by simpa using hg
      by_cases hf : s.is_inflight = true
      · simp [CondvarStore.get, he, hg', hf]
      · have hf' : s.is_inflight = false := by simpa using hf
        by_cases hc : p.cachedPoisoned = true
        · simp [CondvarStore.get, CondvarStore.update, he, hg', hf', hc]
        · have hc' : p.cachedPoisoned = false := by simpa using hc
          cases hR : R.get s.cached with
          | error e2 =>
              simp [CondvarStore.get, CondvarStore.update, he, hg', hf',
                hc', hR]
          | ok k =>
              simp [CondvarStore.get, CondvarStore.update, he, hg', hf',
                hc', hR]

/-- C6 (amended) applied at a concrete input: a poisoned gate mutex on the
expired store `sC6b` makes `get()` return `PoisonedLock`. -/
theorem poisoned_lock_conversion_witness :
    (CondvarStore.get Rex pGate 0 sC6b).1 =
      (.error .PoisonedLock : Except (CondvarStoreError Nat) Nat) :=
  (poisoned_lock_conversion Rex pGate 0 sC6b).1 rfl (Or.inr (by decide))

/-- Claim C6 counterexample: with value 0 still fresh (expiry 100, now 0)
but the expiry RwLock poisoned, the fast-path read fails; `get()` does not
convert that failure into `PoisonedLock` and return it — it ignores the
poisoning, proceeds to the slow path, invokes the refresh, and returns the
refresh's own error 7, which is not `PoisonedLock`. -/
theorem fast_path_poison_ignored :
    sC6.expiry = 100 ∧ pExpiry.expiryPoisoned = true ∧
    (CondvarStore.get rFail pExpiry 0 sC6).1 = .error (.underlying 7) ∧
    (CondvarStore.get rFail pExpiry 0 sC6).1 ≠
      (.error .PoisonedLock : Except (CondvarStoreError Nat) Nat) ∧
    Ev.refreshInvoked ∈ (CondvarStore.get rFail pExpiry 0 sC6).2.2 :=
  ⟨rfl, rfl, rfl,
    by
      rw [show (CondvarStore.get rFail pExpiry 0 sC6).1 =
        .error (.underlying 7) from rfl]
      simp,
    by decide⟩

/-- Claim C9: `new(t)` returns a store holding `t`, its expiry seeded from
`t.expiry()` read at construction, the refreshing flag down, and the default
1000 ms timeout. -/
theorem new_seeds_store {T E : Type} (R : GetExpiry T E) (t : T) :
    (CondvarStore.new R t).cached = t ∧
    (CondvarStore.new R t).is_inflight = false ∧
    (CondvarStore.new R t).expiry = R.expiry t ∧
    (CondvarStore.new R t).timeout = 1000 :=
  ⟨rfl, rfl, rfl, rfl⟩

/-- Claim C10: `with_timeout(m)` sets the timeout field to `m` and leaves
the cached value, the gate flag and the expiry — the shared state every
clone of the store references — untouched; no other field exists. -/
theorem with_timeout_frame {T : Type} (s : CondvarStore T) (m : Nat) :
    (CondvarStore.with_timeout s m).timeout = m ∧
    (CondvarStore.with_timeout s m).cached = s.cached ∧
    (CondvarStore.with_timeout s m).is_inflight = s.is_inflight ∧
    (CondvarStore.with_timeout s m).expiry = s.expiry :=
  ⟨rfl, rfl, rfl, rfl⟩
